import Mathlib

/-!
Verification of the `nameko_autocrud` storage facade (`storage.py`) and
binding component (`__init__.py`) against its specification.

The embedding is shallow: domain objects are attribute bags with a numeric
primary key, a session is the externally-owned transactional handle (its
primitive operations `commit`, `flush`, `refresh`, `add`, `delete` are
recorded in an effect trace, since the session itself is an external
collaborator), and a query is a materialised row list together with the
trace of refinement steps applied to it.
-/

set_option autoImplicit false

namespace NamekoAutocrud

/-- A domain object: an instance of the entity type, modelled as a primary
key plus an attribute bag (field name to integer value). -/
structure Obj where
  pk : Nat
  attrs : List (String × Int)
deriving DecidableEq, Repr

/-- The model class bound to a `DBStorage`; only its `__name__` is observable
in this core (it appears in `NotFound` messages). -/
structure ModelCls where
  name : String
deriving DecidableEq, Repr

/-- Session-level effects invoked by the storage facade.  The session is an
external collaborator, so the embedding records which of its operations are
called, in order. -/
inductive Eff where
  | add
  | del
  | commit
  | flush
  | refresh
deriving DecidableEq, Repr

/-- The transactional session: `rows` is the state visible inside the
session/transaction, `db` is the durably committed state, and `trace` is the
ordered record of session operations invoked so far. -/
structure Session where
  rows : List Obj
  db : List Obj
  trace : List Eff
deriving DecidableEq, Repr

/-- `session.commit()`: durably end the transaction (the visible state
becomes the committed state). -/
def Session.commitS (s : Session) : Session :=
  ⟨s.rows, s.rows, s.trace ++ [Eff.commit]⟩

/-- `session.flush()`: make pending changes visible within the current
transaction without ending it. -/
def Session.flushS (s : Session) : Session :=
  ⟨s.rows, s.db, s.trace ++ [Eff.flush]⟩

/-- `session.add(obj)`: register a new object with the session. -/
def Session.addS (s : Session) (o : Obj) : Session :=
  ⟨s.rows ++ [o], s.db, s.trace ++ [Eff.add]⟩

/-- `session.delete(obj)`: mark the object for removal. -/
def Session.deleteS (s : Session) (p : Nat) : Session :=
  ⟨s.rows.filter (fun o => o.pk != p), s.db, s.trace ++ [Eff.del]⟩

/-- `session.refresh(obj)`: re-read the object's state from storage
(trace component). -/
def Session.refreshS (s : Session) : Session :=
  ⟨s.rows, s.db, s.trace ++ [Eff.refresh]⟩

/-- The object as re-read from the session state by `session.refresh(obj)`. -/
def Session.refreshObj (s : Session) (o : Obj) : Obj :=
  ((s.rows.find? (fun r => r.pk == o.pk)).getD o)

/-- Replace the row with the given object's primary key (in-place attribute
mutation of a loaded object, as seen by the session). -/
def Session.setRow (s : Session) (o : Obj) : Session :=
  ⟨s.rows.map (fun r => if r.pk == o.pk then o else r), s.db, s.trace⟩

/-- A filter operator of the external predicate engine's filter spec. -/
inductive FilterOp where
  | eq
  | ne
  | lt
  | le
  | gt
  | ge
deriving DecidableEq, Repr

/-- One declarative predicate clause (field, operator, value) of a filter
spec, interpreted by the external predicate engine. -/
structure Filter where
  field : String
  op : FilterOp
  value : Int
deriving DecidableEq, Repr

/-- Read a field off a domain object (missing fields read as 0). -/
def Obj.getField (o : Obj) (f : String) : Int :=
  ((o.attrs.find? (fun kv => kv.fst == f)).map Prod.snd).getD 0

/-- Evaluate one filter clause on a domain object. -/
def Filter.eval (flt : Filter) (o : Obj) : Bool :=
  let v := o.getField flt.field
  match flt.op with
  | FilterOp.eq => v == flt.value
  | FilterOp.ne => v != flt.value
  | FilterOp.lt => decide (v < flt.value)
  | FilterOp.le => decide (v ≤ flt.value)
  | FilterOp.gt => decide (flt.value < v)
  | FilterOp.ge => decide (flt.value ≤ v)

/-- An eager-load hint; opaque to this core (it never changes the row set). -/
structure LoadSpec where
  field : String
deriving DecidableEq, Repr

/-- One (field, direction) pair of a sort spec. -/
structure SortSpec where
  field : String
  descending : Bool
deriving DecidableEq, Repr

/-- Lexicographic "less or equal" on objects induced by a sort spec. -/
def sortLe (specs : List SortSpec) (a b : Obj) : Bool :=
  match specs with
  | [] => true
  | s :: rest =>
    let va := a.getField s.field
    let vb := b.getField s.field
    let x := if s.descending then vb else va
    let y := if s.descending then va else vb
    if x < y then true else if y < x then false else sortLe rest a b

/-- Insert into a sorted list (kernel of the deterministic sort used to model
the external `apply_sort`). -/
def insertLe (le : Obj → Obj → Bool) (x : Obj) : List Obj → List Obj
  | [] => [x]
  | y :: ys => if le x y then x :: y :: ys else y :: insertLe le x ys

/-- Deterministic (insertion) sort of the row list by a sort spec, modelling
the external predicate engine's `apply_sort`. -/
def sortRows (specs : List SortSpec) (rows : List Obj) : List Obj :=
  rows.foldr (insertLe (sortLe specs)) []

/-- One refinement step applied to a query, recorded so that the order of
application is observable. -/
inductive QStep where
  | qfilters (fs : List Filter)
  | qloads (ls : List LoadSpec)
  | qsort (ss : List SortSpec)
  | qoffset (n : Nat)
  | qlimit (n : Nat)
deriving DecidableEq, Repr

/-- A query: the materialised row list plus the ordered trace of refinement
steps that produced it. -/
structure Query where
  rows : List Obj
  steps : List QStep
deriving DecidableEq, Repr

/-- `sqlalchemy_filters.apply_filters`: a top-level list of clauses is a
conjunction. -/
def apply_filters (q : Query) (fs : List Filter) : Query :=
  ⟨q.rows.filter (fun o => fs.all (fun flt => flt.eval o)), q.steps ++ [QStep.qfilters fs]⟩

/-- `sqlalchemy_filters.apply_loads`: eager-load hints never change the row
set. -/
def apply_loads (q : Query) (ls : List LoadSpec) : Query :=
  ⟨q.rows, q.steps ++ [QStep.qloads ls]⟩

/-- `sqlalchemy_filters.apply_sort`. -/
def apply_sort (q : Query) (ss : List SortSpec) : Query :=
  ⟨sortRows ss q.rows, q.steps ++ [QStep.qsort ss]⟩

/-- `query.offset(n)`. -/
def Query.offsetQ (q : Query) (n : Nat) : Query :=
  ⟨q.rows.drop n, q.steps ++ [QStep.qoffset n]⟩

/-- `query.limit(n)`. -/
def Query.limitQ (q : Query) (n : Nat) : Query :=
  ⟨q.rows.take n, q.steps ++ [QStep.qlimit n]⟩

/-- `query.all()`. -/
def Query.allQ (q : Query) : List Obj :=
  q.rows

/-- `query.count()`. -/
def Query.countQ (q : Query) : Nat :=
  q.rows.length

/-- `query.get(pk)`: look up by primary key. -/
def Query.getQ (q : Query) (p : Nat) : Option Obj :=
  q.rows.find? (fun o => o.pk == p)

/-- Python truthiness of an optional list argument (`None` and `[]` are both
falsy). -/
def truthyList {α : Type} (x : Option (List α)) : Bool :=
  match x with
  | none => false
  | some l => !l.isEmpty

/-- Python truthiness of an optional integer argument (`None` and `0` are
both falsy). -/
def truthyNat (x : Option Nat) : Bool :=
  match x with
  | none => false
  | some n => n != 0

/-- The integer value of an optional integer argument once known truthy. -/
def optNat (x : Option Nat) : Nat :=
  x.getD 0

/-- The storage facade: constructed with a model class; the session is
attached later (between construction and first use). -/
structure DBStorage where
  model_cls : ModelCls
  session : Option Session
deriving DecidableEq, Repr

/-- The `NotFound` failure detail: `'{} with ID {} does not exist'` formatted
with the model class name and the key. -/
def notFoundMsg (mc : ModelCls) (p : Nat) : String :=
  mc.name ++ " with ID " ++ toString p ++ " does not exist"

namespace DBStorage

/-- `self.query`: `self.session.query(self.model_cls)` — the unrefined query
over all rows of the entity's table. -/
def queryOf (_mc : ModelCls) (s : Session) : Query :=
  ⟨s.rows, []⟩

/-- `DBStorage._get(pk)`: look the key up in the base query and raise
`NotFound` (with the formatted detail) when it does not resolve. -/
def _get (mc : ModelCls) (s : Session) (p : Nat) : Except String Obj :=
  match (queryOf mc s).getQ p with
  | none => Except.error (notFoundMsg mc p)
  | some o => Except.ok o

/-- `DBStorage.get(pk)`. -/
def get (mc : ModelCls) (s : Session) (p : Nat) : Except String Obj :=
  _get mc s p

/-- The query built by `DBStorage.list` just before `.all()` is called:
each refinement is applied only when its argument is truthy. -/
def listQuery (mc : ModelCls) (s : Session) (filters : Option (List Filter))
    (loads : Option (List LoadSpec)) (order_by : Option (List SortSpec))
    (offset limit : Option Nat) : Query :=
  let q0 := queryOf mc s
  let q1 := if truthyList filters then apply_filters q0 (filters.getD []) else q0
  let q2 := if truthyList loads then apply_loads q1 (loads.getD []) else q1
  let q3 := if truthyList order_by then apply_sort q2 (order_by.getD []) else q2
  let q4 := if truthyNat offset then q3.offsetQ (optNat offset) else q3
  let q5 := if truthyNat limit then q4.limitQ (optNat limit) else q4
  q5

/-- `DBStorage.list(filters, loads, order_by, offset, limit)`. -/
def list (mc : ModelCls) (s : Session) (filters : Option (List Filter))
    (loads : Option (List LoadSpec)) (order_by : Option (List SortSpec))
    (offset limit : Option Nat) : List Obj :=
  (listQuery mc s filters loads order_by offset limit).allQ

/-- `DBStorage.count(filters)`. -/
def count (mc : ModelCls) (s : Session) (filters : Option (List Filter)) : Nat :=
  let q0 := queryOf mc s
  let q1 := if truthyList filters then apply_filters q0 (filters.getD []) else q0
  q1.countQ

/-- `setattr(obj, key, value)` on an attribute bag. -/
def setattrObj (o : Obj) (key : String) (value : Int) : Obj :=
  ⟨o.pk, (key, value) :: o.attrs.filter (fun kv => kv.fst != key)⟩

/-- Apply each key/value of `data` as an attribute assignment, in order. -/
def applyData (o : Obj) (data : List (String × Int)) : Obj :=
  data.foldl (fun acc kv => setattrObj acc kv.fst kv.snd) o

/-- `DBStorage.update(pk, data, flush=True, commit=True)`: load via `_get`,
assign attributes, then commit (and refresh) or flush (and refresh) or leave
pending.  Returns the result together with the session as left by the call. -/
def update (mc : ModelCls) (s : Session) (p : Nat) (data : List (String × Int))
    (flush : Bool := true) (commit : Bool := true) : Except String Obj × Session :=
  match _get mc s p with
  | Except.error e => (Except.error e, s)
  | Except.ok obj0 =>
    let obj := applyData obj0 data
    let s1 := s.setRow obj
    if commit then
      let s2 := s1.commitS
      let s3 := s2.refreshS
      (Except.ok (s3.refreshObj obj), s3)
    else if flush then
      let s2 := s1.flushS
      let s3 := s2.refreshS
      (Except.ok (s3.refreshObj obj), s3)
    else (Except.ok obj, s1)

/-- `DBStorage.create(data, flush=True, commit=True)`: instantiate
(`model_cls(**data)` — the instantiated domain object is the `data`
argument here), add to the session, then commit/flush-and-refresh or leave
pending. -/
def create (_mc : ModelCls) (s : Session) (data : Obj)
    (flush : Bool := true) (commit : Bool := true) : Obj × Session :=
  let obj := data
  let s1 := s.addS obj
  if commit then
    let s2 := s1.commitS
    let s3 := s2.refreshS
    (s3.refreshObj obj, s3)
  else if flush then
    let s2 := s1.flushS
    let s3 := s2.refreshS
    (s3.refreshObj obj, s3)
  else (obj, s1)

/-- `DBStorage.delete(pk, flush=True, commit=True)`: load via `_get`, mark
for removal, then commit or flush (no refresh). -/
def delete (mc : ModelCls) (s : Session) (p : Nat)
    (flush : Bool := true) (commit : Bool := true) : Except String Unit × Session :=
  match _get mc s p with
  | Except.error e => (Except.error e, s)
  | Except.ok obj =>
    let s1 := s.deleteS obj.pk
    if commit then (Except.ok (), s1.commitS)
    else if flush then (Except.ok (), s1.flushS)
    else (Except.ok (), s1)

end DBStorage

/-- A Python value sitting in a class attribute slot, with its truthiness. -/
inductive PyVal where
  | vnone
  | vbool (b : Bool)
  | vint (n : Int)
  | vstr (s : String)
  | userFn (tag : Nat)
  | synthFn (op : String)
deriving DecidableEq, Repr

/-- Python truthiness of an attribute value; functions are always truthy. -/
def PyVal.truthy : PyVal → Bool
  | PyVal.vnone => false
  | PyVal.vbool b => b
  | PyVal.vint n => n != 0
  | PyVal.vstr s => !s.isEmpty
  | PyVal.userFn _ => true
  | PyVal.synthFn _ => true

/-- A service class: its attribute table. -/
abbrev ServiceCls := List (String × PyVal)

/-- `getattr(service_cls, n, None)`. -/
def getattrCls : ServiceCls → String → PyVal
  | [], _ => PyVal.vnone
  | kv :: t, n => if kv.fst == n then kv.snd else getattrCls t n

/-- `setattr(service_cls, n, v)`. -/
def setattrCls (c : ServiceCls) (n : String) (v : PyVal) : ServiceCls :=
  (n, v) :: c.filter (fun kv => kv.fst != n)

namespace AutoCrud

/-- `make_methodname(prefix, custom, plural=False)` from `AutoCrud.__init__`:
`none` stands for the `DEFAULT` sentinel (no override supplied). -/
def make_methodname (entity_name entity_name_plural : String) (pre : String)
    (custom : Option String) (plural : Bool) : String :=
  match custom with
  | none => pre ++ (if plural then entity_name_plural else entity_name)
  | some s => s

/-- `self.method_names`: the ordered mapping from logical operation to
resolved remote method name. -/
def method_names (entity_name entity_name_plural : String)
    (get_mn list_mn page_mn count_mn create_mn update_mn delete_mn : Option String) :
    List (String × String) :=
  [("get", make_methodname entity_name entity_name_plural "get_" get_mn false),
   ("list", make_methodname entity_name entity_name_plural "list_" list_mn true),
   ("page", make_methodname entity_name entity_name_plural "page_" page_mn true),
   ("count", make_methodname entity_name entity_name_plural "count_" count_mn true),
   ("create", make_methodname entity_name entity_name_plural "create_" create_mn false),
   ("update", make_methodname entity_name entity_name_plural "update_" update_mn false),
   ("delete", make_methodname entity_name entity_name_plural "delete_" delete_mn false)]

/-- One iteration of the loop in `AutoCrud.bind`:
`if rpc_name and not getattr(service_cls, rpc_name, None): setattr(...)`. -/
def bindStep (cls : ServiceCls) (entry : String × String) : ServiceCls :=
  if !entry.snd.isEmpty && !(getattrCls cls entry.snd).truthy then
    setattrCls cls entry.snd (PyVal.synthFn entry.fst)
  else cls

/-- `AutoCrud.bind`: attach a synthesized remote method for every entry of
the resolved method-name mapping whose name is truthy and not already a
truthy attribute of the service class. -/
def bind (cls : ServiceCls) (names : List (String × String)) : ServiceCls :=
  names.foldl bindStep cls

end AutoCrud

/-- A live service instance: attributes holding sessions, plus the bound
storage attribute written by `worker_setup`. -/
structure ServiceInst where
  attrs : List (String × Session)
  db_storage : DBStorage
deriving DecidableEq, Repr

/-- The three configuration forms accepted by `get_dependency_accessor`:
a string (attribute name), a dependency-provider object (carrying its bound
attribute name), or a one-argument callable. -/
inductive Accessor where
  | strAcc (name : String)
  | providerAcc (attr_name : String)
  | callableAcc (f : ServiceInst → Session)

/-- `getattr(service, n)` for session-valued attributes (`none` models the
`AttributeError` raised when the attribute is missing). -/
def getattrInst (svc : ServiceInst) (n : String) : Option Session :=
  (svc.attrs.find? (fun kv => kv.fst == n)).map Prod.snd

/-- `get_dependency_accessor(accessor)`: dispatch on the accessor's form. -/
def get_dependency_accessor (acc : Accessor) : ServiceInst → Option Session :=
  fun service =>
    match acc with
    | Accessor.strAcc n => getattrInst service n
    | Accessor.providerAcc a => getattrInst service a
    | Accessor.callableAcc f => some (f service)

/-- `AutoCrud.worker_setup`: resolve the session off the service instance via
the configured accessor and attach it to the worker's storage facade. -/
def worker_setup (acc : Accessor) (svc : ServiceInst) : Option ServiceInst :=
  (get_dependency_accessor acc svc).map
    (fun s => { svc with db_storage := { svc.db_storage with session := some s } })

/-! Concrete data used by witness and counterexample theorems. -/

/-- A concrete domain object for witnesses. -/
def wObj : Obj := ⟨1, [("name", 5)]⟩

/-- A concrete session holding exactly `wObj`, already committed. -/
def wSession : Session := ⟨[wObj], [wObj], []⟩

/-- A concrete model class for witnesses. -/
def wModel : ModelCls := ⟨"widget"⟩

/-! Claim theorems. -/

/-- C1: for every primary key `pk` that does not resolve to an object in
storage, `DBStorage.get`, `DBStorage.update` and `DBStorage.delete` each
fail by raising `NotFound`, whose detail names the entity type and the
key (`'{} with ID {} does not exist'`). -/
theorem get_update_delete_notFound (mc : ModelCls) (sess : Session) (p : Nat)
    (data : List (String × Int)) (fl cm : Bool)
    (h : sess.rows.find? (fun o => o.pk == p) = none) :
    DBStorage.get mc sess p = Except.error (notFoundMsg mc p)
    ∧ (DBStorage.update mc sess p data fl cm).fst = Except.error (notFoundMsg mc p)
    ∧ (DBStorage.delete mc sess p fl cm).fst = Except.error (notFoundMsg mc p)
    ∧ notFoundMsg mc p = mc.name ++ " with ID " ++ toString p ++ " does not exist" := by
  have hg : DBStorage._get mc sess p = Except.error (notFoundMsg mc p) := by
    simp [DBStorage._get, DBStorage.queryOf, Query.getQ, h]
  refine ⟨?_, ?_, ?_, rfl⟩ <;>
    simp [DBStorage.get, DBStorage.update, DBStorage.delete, hg]

/-- C1 witness: key 2 is absent from the concrete session. -/
theorem get_update_delete_notFound_witness :
    DBStorage.get wModel wSession 2 = Except.error (notFoundMsg wModel 2)
    ∧ (DBStorage.update wModel wSession 2 [] true true).fst = Except.error (notFoundMsg wModel 2)
    ∧ (DBStorage.delete wModel wSession 2 true true).fst = Except.error (notFoundMsg wModel 2)
    ∧ notFoundMsg wModel 2 = wModel.name ++ " with ID " ++ toString 2 ++ " does not exist" :=
  get_update_delete_notFound wModel wSession 2 [] true true (by decide)

/-- C10: `DBStorage.update` and `DBStorage.delete` are atomic on failure —
on an unresolved key they return the `NotFound` error with the session left
exactly as it was (no attribute assignment, no deletion registration, no
session effect). -/
theorem update_delete_atomic_on_notFound (mc : ModelCls) (sess : Session) (p : Nat)
    (data : List (String × Int)) (fl cm : Bool)
    (h : sess.rows.find? (fun o => o.pk == p) = none) :
    DBStorage.update mc sess p data fl cm = (Except.error (notFoundMsg mc p), sess)
    ∧ DBStorage.delete mc sess p fl cm = (Except.error (notFoundMsg mc p), sess) := by
  have hg : DBStorage._get mc sess p = Except.error (notFoundMsg mc p) := by
    simp [DBStorage._get, DBStorage.queryOf, Query.getQ, h]
  constructor <;> simp [DBStorage.update, DBStorage.delete, hg]

/-- C10 witness: key 3 is absent from the concrete session. -/
theorem update_delete_atomic_on_notFound_witness :
    DBStorage.update wModel wSession 3 [("name", 9)] false false
      = (Except.error (notFoundMsg wModel 3), wSession)
    ∧ DBStorage.delete wModel wSession 3 false false
      = (Except.error (notFoundMsg wModel 3), wSession) :=
  update_delete_atomic_on_notFound wModel wSession 3 [("name", 9)] false false (by decide)

/-- A second concrete domain object, used as `create` payload in witnesses. -/
def wObj2 : Obj := ⟨2, [("name", 7)]⟩

/-- The session effects a mutating operation must append after its change:
commit wins over flush, a refresh follows when the operation refreshes, and
nothing is emitted when neither durability control is set. -/
def durSuffix (commit flush withRefresh : Bool) : List Eff :=
  if commit then Eff.commit :: (if withRefresh then [Eff.refresh] else [])
  else if flush then Eff.flush :: (if withRefresh then [Eff.refresh] else [])
  else []

/-- C2: for every mutating operation, commit takes precedence over flush
(same behaviour whatever `flush` is when `commit` is set), flush alone
flushes, neither leaves the change pending (the durable state `db` is
untouched); after the commit or flush, `create` and `update` refresh while
`delete` does not — all visible in the session effect trace. -/
theorem crud_durability (mc : ModelCls) (sess : Session) (p : Nat)
    (data : List (String × Int)) (dataObj obj : Obj) (fl cm : Bool)
    (h : sess.rows.find? (fun o => o.pk == p) = some obj) :
    ((DBStorage.create mc sess dataObj fl cm).snd).trace
        = sess.trace ++ Eff.add :: durSuffix cm fl true
    ∧ ((DBStorage.update mc sess p data fl cm).snd).trace
        = sess.trace ++ durSuffix cm fl true
    ∧ ((DBStorage.delete mc sess p fl cm).snd).trace
        = sess.trace ++ Eff.del :: durSuffix cm fl false
    ∧ DBStorage.create mc sess dataObj true true = DBStorage.create mc sess dataObj false true
    ∧ DBStorage.update mc sess p data true true = DBStorage.update mc sess p data false true
    ∧ DBStorage.delete mc sess p true true = DBStorage.delete mc sess p false true
    ∧ (cm = true →
        ((DBStorage.create mc sess dataObj fl cm).snd).db
            = ((DBStorage.create mc sess dataObj fl cm).snd).rows
        ∧ ((DBStorage.update mc sess p data fl cm).snd).db
            = ((DBStorage.update mc sess p data fl cm).snd).rows
        ∧ ((DBStorage.delete mc sess p fl cm).snd).db
            = ((DBStorage.delete mc sess p fl cm).snd).rows)
    ∧ (cm = false → fl = false →
        ((DBStorage.create mc sess dataObj fl cm).snd).db = sess.db
        ∧ ((DBStorage.update mc sess p data fl cm).snd).db = sess.db
        ∧ ((DBStorage.delete mc sess p fl cm).snd).db = sess.db) := by
  have hg : DBStorage._get mc sess p = Except.ok obj := by
    simp [DBStorage._get, DBStorage.queryOf, Query.getQ, h]
  cases cm <;> cases fl <;>
    simp [DBStorage.create, DBStorage.update, DBStorage.delete, hg, durSuffix,
      Session.addS, Session.deleteS, Session.setRow, Session.commitS,
      Session.flushS, Session.refreshS]

/-- C2 witness: the concrete session resolves key 1, instantiated with
`flush = false`, `commit = true`. -/
theorem crud_durability_witness :
    ((DBStorage.create wModel wSession wObj2 false true).snd).trace
        = wSession.trace ++ Eff.add :: durSuffix true false true
    ∧ ((DBStorage.update wModel wSession 1 [("name", 9)] false true).snd).trace
        = wSession.trace ++ durSuffix true false true := by
  have h := crud_durability wModel wSession 1 [("name", 9)] wObj2 wObj false true (by decide)
  exact ⟨h.1, h.2.1⟩

/-- The refinement steps the spec prescribes for a `list` call, in the fixed
order filters, loads, ordering, offset, limit, each contributing nothing
when its argument does not request it. -/
def stepsOf (filters : Option (List Filter)) (loads : Option (List LoadSpec))
    (order_by : Option (List SortSpec)) (offset limit : Option Nat) : List QStep :=
  (if truthyList filters then [QStep.qfilters (filters.getD [])] else [])
    ++ (if truthyList loads then [QStep.qloads (loads.getD [])] else [])
    ++ (if truthyList order_by then [QStep.qsort (order_by.getD [])] else [])
    ++ (if truthyNat offset then [QStep.qoffset (optNat offset)] else [])
    ++ (if truthyNat limit then [QStep.qlimit (optNat limit)] else [])

/-- Semantic application of one recorded refinement step. -/
def applyStep (q : Query) (st : QStep) : Query :=
  match st with
  | QStep.qfilters fs => apply_filters q fs
  | QStep.qloads ls => apply_loads q ls
  | QStep.qsort ss => apply_sort q ss
  | QStep.qoffset n => q.offsetQ n
  | QStep.qlimit n => q.limitQ n

/-- C3: the query built by `DBStorage.list` applies its refinements in the
fixed order filters, loads, ordering, offset, limit — its recorded step
trace is exactly `stepsOf`, with absent arguments contributing no step —
and the result is the row list of the base query refined by exactly those
steps in that order (so an all-absent call returns the unrefined rows). -/
theorem list_refines_in_order (mc : ModelCls) (sess : Session)
    (f : Option (List Filter)) (l : Option (List LoadSpec))
    (ob : Option (List SortSpec)) (off lim : Option Nat) :
    (DBStorage.listQuery mc sess f l ob off lim).steps = stepsOf f l ob off lim
    ∧ DBStorage.list mc sess f l ob off lim
        = ((stepsOf f l ob off lim).foldl applyStep (DBStorage.queryOf mc sess)).rows
    ∧ DBStorage.list mc sess none none none none none = sess.rows := by
  refine ⟨?_, ?_, rfl⟩ <;>
  · cases hf : truthyList f <;> cases hl : truthyList l <;>
      cases hob : truthyList ob <;> cases ho : truthyNat off <;>
      cases hlim : truthyNat lim <;>
      simp [DBStorage.list, DBStorage.listQuery, stepsOf, applyStep,
        DBStorage.queryOf, Query.allQ, apply_filters, apply_loads, apply_sort,
        Query.offsetQ, Query.limitQ, hf, hl, hob, ho, hlim]

/-- Inserting into a list grows its length by one. -/
lemma length_insertLe (le : Obj → Obj → Bool) (x : Obj) (xs : List Obj) :
    (insertLe le x xs).length = xs.length + 1 := by
  induction xs with
  | nil => rfl
  | cons y ys ih => by_cases h : le x y = true <;> simp [insertLe, h, ih]

/-- The modelled `apply_sort` permutes rows, so it preserves their number. -/
lemma length_sortRows (ss : List SortSpec) (rows : List Obj) :
    (sortRows ss rows).length = rows.length := by
  induction rows with
  | nil => rfl
  | cons r rest ih =>
    show (insertLe (sortLe ss) r (sortRows ss rest)).length = rest.length + 1
    rw [length_insertLe, ih]

/-- C4: `DBStorage.count` with a filter spec equals the length of the
sequence `DBStorage.list` returns for the same filters over the same
session, whatever load or sort spec `list` is additionally given (count
applies the filters only and no pagination). -/
theorem count_matches_list (mc : ModelCls) (sess : Session)
    (f : Option (List Filter)) (l : Option (List LoadSpec))
    (ob : Option (List SortSpec)) :
    DBStorage.count mc sess f = (DBStorage.list mc sess f l ob none none).length := by
  cases hf : truthyList f <;> cases hl : truthyList l <;> cases hob : truthyList ob <;>
    simp [DBStorage.count, DBStorage.list, DBStorage.listQuery, DBStorage.queryOf,
      Query.allQ, Query.countQ, apply_filters, apply_loads, apply_sort,
      truthyNat, hf, hl, hob, length_sortRows]

/-- C5 counterexample: with one stored row, `list(offset=0, limit=0)`
returns the full row list (the falsy limit is skipped), while the slice
`list()[0:0+0]` is empty — the claimed identity fails at `limit = 0`. -/
theorem list_slice_counterexample :
    ¬ (DBStorage.list wModel wSession none none none (some 0) (some 0)
        = ((DBStorage.list wModel wSession none none none none none).drop 0).take 0) := by
  decide

/-- C5 (amended): for every filter spec, deterministic fixed order, offset
`O` and positive limit `L`, `list(filters, order_by, offset=O, limit=L)`
returns exactly `list(filters, order_by)` sliced as `[O:O+L]` in the same
relative order (at `limit = 0` the code instead skips the limit step and
returns every row from the offset on). -/
theorem list_slice (mc : ModelCls) (sess : Session) (f : Option (List Filter))
    (ob : Option (List SortSpec)) (O L : Nat) (hL : 1 ≤ L) :
    DBStorage.list mc sess f none ob (some O) (some L)
      = ((DBStorage.list mc sess f none ob none none).drop O).take L := by
  cases L with
  | zero => exact absurd hL (by omega)
  | succ m =>
    cases O <;>
      simp [DBStorage.list, DBStorage.listQuery, Query.allQ, Query.offsetQ,
        Query.limitQ, truthyNat, optNat]

/-- C5 witness: slicing with offset 0 and limit 1 over the concrete
session. -/
theorem list_slice_witness :
    DBStorage.list wModel wSession none none none (some 0) (some 1)
      = ((DBStorage.list wModel wSession none none none none none).drop 0).take 1 :=
  list_slice wModel wSession none none 0 1 (by omega)

/-- C9: in `DBStorage.list` and `DBStorage.count` any falsy argument — not
only absence — disables its query step: empty filter, load, or sort specs
behave like passing none at all, `offset = 0` applies no offset, and
`limit = 0` applies no limit (returning every matching row rather than an
empty sequence). -/
theorem falsy_disables_steps (mc : ModelCls) (sess : Session)
    (f : Option (List Filter)) (l : Option (List LoadSpec))
    (ob : Option (List SortSpec)) (off lim : Option Nat) :
    DBStorage.list mc sess (some []) l ob off lim
        = DBStorage.list mc sess none l ob off lim
    ∧ DBStorage.list mc sess f (some []) ob off lim
        = DBStorage.list mc sess f none ob off lim
    ∧ DBStorage.list mc sess f l (some []) off lim
        = DBStorage.list mc sess f l none off lim
    ∧ DBStorage.list mc sess f l ob (some 0) lim
        = DBStorage.list mc sess f l ob none lim
    ∧ DBStorage.list mc sess f l ob off (some 0)
        = DBStorage.list mc sess f l ob off none
    ∧ DBStorage.count mc sess (some []) = DBStorage.count mc sess none :=
  ⟨rfl, rfl, rfl, rfl, rfl, rfl⟩

/-- Removing every entry for key `n` leaves lookups at a different key
unchanged. -/
lemma getattrCls_filter_ne (c : ServiceCls) (n m : String) (h : (n == m) = false) :
    getattrCls (c.filter (fun kv => kv.fst != n)) m = getattrCls c m := by
  induction c with
  | nil => rfl
  | cons kv t ih =>
    by_cases hk : (kv.fst == n) = true
    · have h1 : kv.fst = n := eq_of_beq hk
      have h2 : (kv.fst == m) = false := by rw [h1]; exact h
      have hbne : (kv.fst != n) = false := by simp [bne, hk]
      simp [List.filter_cons, getattrCls, hbne, h2, ih]
    · have hk2 : (kv.fst == n) = false := by simpa using hk
      have hbne : (kv.fst != n) = true := by simp [bne, hk2]
      simp [List.filter_cons, getattrCls, hbne, ih]

/-- Reading back the attribute just set. -/
lemma getattrCls_setattr_self (c : ServiceCls) (n : String) (v : PyVal) :
    getattrCls (setattrCls c n v) n = v := by
  simp [setattrCls, getattrCls]

/-- Setting one attribute leaves the others unchanged. -/
lemma getattrCls_setattr_ne (c : ServiceCls) (n m : String) (v : PyVal)
    (h : (n == m) = false) :
    getattrCls (setattrCls c n v) m = getattrCls c m := by
  simp [setattrCls, getattrCls, h, getattrCls_filter_ne c n m h]

/-- `AutoCrud.bind` peels one loop iteration. -/
lemma bind_cons (cls : ServiceCls) (e : String × String) (rest : List (String × String)) :
    AutoCrud.bind cls (e :: rest) = AutoCrud.bind (AutoCrud.bindStep cls e) rest :=
  rfl

/-- The loop body when the guard holds. -/
lemma bindStep_of_cond (cls : ServiceCls) (e : String × String)
    (hc : (!e.snd.isEmpty && !(getattrCls cls e.snd).truthy) = true) :
    AutoCrud.bindStep cls e = setattrCls cls e.snd (PyVal.synthFn e.fst) := by
  simp [AutoCrud.bindStep, hc]

/-- The loop body when the guard fails. -/
lemma bindStep_of_not_cond (cls : ServiceCls) (e : String × String)
    (hc : (!e.snd.isEmpty && !(getattrCls cls e.snd).truthy) = false) :
    AutoCrud.bindStep cls e = cls := by
  simp [AutoCrud.bindStep, hc]

/-- `bind` never changes an attribute whose current value is truthy. -/
lemma bind_preserves_truthy (names : List (String × String)) (cls : ServiceCls)
    (n : String) (h : (getattrCls cls n).truthy = true) :
    getattrCls (AutoCrud.bind cls names) n = getattrCls cls n := by
  induction names generalizing cls with
  | nil => rfl
  | cons e rest ih =>
    rw [bind_cons]
    by_cases hc : (!e.snd.isEmpty && !(getattrCls cls e.snd).truthy) = true
    · have hne : (e.snd == n) = false := by
        by_cases hq : (e.snd == n) = true
        · have he : e.snd = n := eq_of_beq hq
          rw [he, h] at hc
          simp at hc
        · simpa using hq
      rw [bindStep_of_cond cls e hc]
      have hg : getattrCls (setattrCls cls e.snd (PyVal.synthFn e.fst)) n
          = getattrCls cls n := getattrCls_setattr_ne cls e.snd n _ hne
      rw [ih _ (by rw [hg]; exact h), hg]
    · have hc2 : (!e.snd.isEmpty && !(getattrCls cls e.snd).truthy) = false := by
        simpa using hc
      rw [bindStep_of_not_cond cls e hc2]
      exact ih cls h

/-- After `bind`, every non-suppressed entry's resolved name holds a truthy
attribute (the synthesized method, or the pre-existing truthy value). -/
lemma bind_attaches (names : List (String × String)) (cls : ServiceCls) :
    ∀ e ∈ names, e.snd ≠ "" → (getattrCls (AutoCrud.bind cls names) e.snd).truthy = true := by
  induction names generalizing cls with
  | nil =>
    intro e he
    exact absurd he (List.not_mem_nil e)
  | cons e0 rest ih =>
    intro e he hne
    rw [bind_cons]
    rcases List.mem_cons.mp he with heq | hmem
    · subst heq
      have h1 : (getattrCls (AutoCrud.bindStep cls e) e.snd).truthy = true := by
        by_cases hc : (!e.snd.isEmpty && !(getattrCls cls e.snd).truthy) = true
        · rw [bindStep_of_cond cls e hc, getattrCls_setattr_self]
          rfl
        · have hc2 : (!e.snd.isEmpty && !(getattrCls cls e.snd).truthy) = false := by
            simpa using hc
          rw [bindStep_of_not_cond cls e hc2]
          have hemp : e.snd.isEmpty = false := by
            by_cases hq : e.snd.isEmpty = true
            · exact absurd ((String.isEmpty_iff e.snd).mp hq) hne
            · simpa using hq
          rw [hemp] at hc2
          simpa using hc2
      rw [bind_preserves_truthy rest _ _ h1]
      exact h1
    · exact ih (AutoCrud.bindStep cls e0) e hmem hne

/-- `bind` is the identity when every non-suppressed name already holds a
truthy attribute. -/
lemma bind_noop_of_truthy (names : List (String × String)) (cls : ServiceCls) :
    (∀ e ∈ names, e.snd ≠ "" → (getattrCls cls e.snd).truthy = true) →
    AutoCrud.bind cls names = cls := by
  induction names with
  | nil => intro _h; rfl
  | cons e rest ih =>
    intro h
    rw [bind_cons]
    have hstep : AutoCrud.bindStep cls e = cls := by
      apply bindStep_of_not_cond
      by_cases hne : e.snd = ""
      · rw [hne]
        rfl
      · rw [h e (List.mem_cons_self e rest) hne]
        simp
    rw [hstep]
    exact ih (fun e2 he2 hne2 => h e2 (List.mem_cons_of_mem e he2) hne2)

/-- The method-name mapping resolved for entity `widget` with no overrides. -/
def names0 : List (String × String) :=
  AutoCrud.method_names "widget" "widgets" none none none none none none none

/-- C6 counterexample: a class carrying the attribute `get_widget` with a
falsy value (`None`).  The attribute is present, yet `bind` attaches a
synthesized method over it — the code tests truthiness, not presence. -/
theorem bind_overwrites_present_falsy_attr :
    (([("get_widget", PyVal.vnone)] : ServiceCls).find?
        (fun kv => kv.fst == "get_widget")).isSome = true
    ∧ getattrCls (AutoCrud.bind [("get_widget", PyVal.vnone)] names0) "get_widget"
        = PyVal.synthFn "get" := by
  constructor
  · rfl
  · rfl

/-- C6 (amended): `AutoCrud.bind` is idempotent and attaches a method only
when the resolved name's current attribute value is falsy (a present but
falsy attribute, such as `None`, is overwritten); attributes holding truthy
values — in particular any user-defined method — are never replaced, and
after `bind` every non-suppressed operation name holds a (single) truthy
method. -/
theorem bind_idempotent_no_overwrite (cls : ServiceCls) (names : List (String × String)) :
    AutoCrud.bind (AutoCrud.bind cls names) names = AutoCrud.bind cls names
    ∧ (∀ n : String, (getattrCls cls n).truthy = true →
        getattrCls (AutoCrud.bind cls names) n = getattrCls cls n)
    ∧ (∀ e ∈ names, e.snd ≠ "" →
        (getattrCls (AutoCrud.bind cls names) e.snd).truthy = true) :=
  ⟨bind_noop_of_truthy names (AutoCrud.bind cls names) (bind_attaches names cls),
   fun n h => bind_preserves_truthy names cls n h,
   bind_attaches names cls⟩

/-- C6 witness: a user-defined `get_widget` on the class survives a double
`bind`, and the non-suppressed name `list_widgets` ends up bound. -/
theorem bind_idempotent_no_overwrite_witness :
    AutoCrud.bind (AutoCrud.bind [("get_widget", PyVal.userFn 7)] names0) names0
      = AutoCrud.bind [("get_widget", PyVal.userFn 7)] names0
    ∧ getattrCls (AutoCrud.bind [("get_widget", PyVal.userFn 7)] names0) "get_widget"
      = getattrCls [("get_widget", PyVal.userFn 7)] "get_widget"
    ∧ (getattrCls (AutoCrud.bind [("get_widget", PyVal.userFn 7)] names0)
        "list_widgets").truthy = true :=
  ⟨(bind_idempotent_no_overwrite [("get_widget", PyVal.userFn 7)] names0).1,
   (bind_idempotent_no_overwrite [("get_widget", PyVal.userFn 7)] names0).2.1
     "get_widget" (by decide),
   (bind_idempotent_no_overwrite [("get_widget", PyVal.userFn 7)] names0).2.2
     ("list", "list_widgets") (by decide) (by decide)⟩

/-- C7: each logical operation resolves to the explicit override when one is
supplied, and otherwise to the operation prefix concatenated with the entity
name (plural for `list`, `page`, `count`); an entry resolved to the empty
name is suppressed — the `bind` loop attaches nothing for it. -/
theorem method_name_resolution (en enp : String)
    (g l p c cr u d : Option String) :
    AutoCrud.method_names en enp g l p c cr u d
      = [("get", g.getD ("get_" ++ en)),
         ("list", l.getD ("list_" ++ enp)),
         ("page", p.getD ("page_" ++ enp)),
         ("count", c.getD ("count_" ++ enp)),
         ("create", cr.getD ("create_" ++ en)),
         ("update", u.getD ("update_" ++ en)),
         ("delete", d.getD ("delete_" ++ en))]
    ∧ ∀ (cls : ServiceCls) (op : String) (rest : List (String × String)),
        AutoCrud.bind cls ((op, "") :: rest) = AutoCrud.bind cls rest := by
  constructor
  · have hm : ∀ (pre : String) (custom : Option String) (plural : Bool),
        AutoCrud.make_methodname en enp pre custom plural
          = custom.getD (pre ++ (if plural then enp else en)) := by
      intro pre custom plural
      cases custom <;> rfl
    simp [AutoCrud.method_names, hm]
  · intro cls op rest
    rw [bind_cons]
    have hstep : AutoCrud.bindStep cls (op, "") = cls := by
      apply bindStep_of_not_cond
      rfl
    rw [hstep]

/-- C8: the accessor configuration accepts exactly three forms — a string is
read as an attribute name off the service, a dependency-provider object is
resolved through its bound attribute name, and anything else is invoked as a
one-argument callable on the service; `worker_setup` resolves the session
through the configured accessor and attaches it to the worker's storage. -/
theorem accessor_resolution :
    (∀ (svc : ServiceInst) (n : String),
        get_dependency_accessor (Accessor.strAcc n) svc = getattrInst svc n)
    ∧ (∀ (svc : ServiceInst) (a : String),
        get_dependency_accessor (Accessor.providerAcc a) svc = getattrInst svc a)
    ∧ (∀ (svc : ServiceInst) (f : ServiceInst → Session),
        get_dependency_accessor (Accessor.callableAcc f) svc = some (f svc))
    ∧ (∀ (acc : Accessor) (svc : ServiceInst) (s : Session),
        get_dependency_accessor acc svc = some s →
        worker_setup acc svc
          = some { svc with db_storage := { svc.db_storage with session := some s } }) := by
  refine ⟨fun _ _ => rfl, fun _ _ => rfl, fun _ _ => rfl, fun acc svc s h => ?_⟩
  simp [worker_setup, h]

/-- C8 witness: a service instance whose `session` attribute holds the
concrete session, resolved via the string form during worker setup. -/
theorem accessor_resolution_witness :
    worker_setup (Accessor.strAcc "session")
        ⟨[("session", wSession)], ⟨wModel, none⟩⟩
      = some ⟨[("session", wSession)], ⟨wModel, some wSession⟩⟩ :=
  accessor_resolution.2.2.2 (Accessor.strAcc "session")
    ⟨[("session", wSession)], ⟨wModel, none⟩⟩ wSession rfl

end NamekoAutocrud
